import Mathlib

/-!
Verification of the Adlocaite Broadsign integration package.

Shallow embedding of the core JavaScript components of the
adlocaite-broadsign repository, together with proofs of the
specification claims about them.

Embedded components:
* `AdlocaiteAPI` — `makeRequest` from `package/js/adlocaite-api.js`
  (timeout / retry / HTTP-status interpretation policy).
* `Player` — the tracking-event and progress logic of
  `package/js/player.js` (`fireTrackingEvent`, `handleVideoProgress`,
  `confirmPlayout`, `preloadVideo` event wiring).
* `VAST` — the media-candidate ordering and selection of
  `package/js/vast-parser.js` (`parseMediaFiles` sort comparator,
  `getBestMediaFile`, `getTrackingUrls`).
* `Adapter` — `getScreenId` of `package/js/broadsign-adapter.js` and of
  the newer adapter copy in the corpus (`unnamed/part_004`).
-/

namespace AdlocaiteAPI

/-- Outcome of one `fetch` attempt as seen by `makeRequest`'s
`try`/`catch`: either an HTTP response with a status code, an
`AbortError` raised by the per-call timeout controller, or a
transport-level error (whose message may or may not contain the
substring `fetch`, which is what the retry test
`err.message.includes('fetch')` checks). -/
inductive FetchOutcome where
  | resp (status : Nat)
  | abort
  | netErr (msgHasFetch : Bool)
deriving DecidableEq, Repr

/-- Result of `makeRequest`: a successful body (we keep the status of the
attempt that succeeded), the typed `noOffersAvailable` object returned
for 404, the typed `{error: true, status, ...}` object returned for
other 4xx, or a thrown `Error` with its message. -/
inductive ReqResult where
  | success (status : Nat)
  | noOffers
  | clientError (status : Nat)
  | thrown (msg : String)
deriving DecidableEq, Repr

/-- The retry-relevant configuration of `AdlocaiteAPIClient`:
`maxRetries` (default 3) and `retryDelay` (default 1000 ms). -/
structure Config where
  maxRetries : Nat
  retryDelay : Nat
deriving DecidableEq, Repr

/-- Model of `makeRequest(url, options, retryCount)` from
`package/js/adlocaite-api.js`, lines 42–141.  The environment `env`
gives the outcome of the fetch at each attempt index.  Returns the
result together with the list of backoff delays
(`retryDelay * 2^retryCount`) slept before each retry.

Branch order follows the source exactly:
`response.ok` (status 200–299) → return body; status 404 → return the
`noOffersAvailable` object; status ≥ 500 with attempts left → sleep and
recurse; other 4xx → return the typed error object; otherwise → throw.
In the `catch`: an `AbortError` (timeout) → throw `Request timeout`;
a network error whose message contains `fetch`, with attempts left →
sleep and recurse; otherwise → rethrow. -/
def makeRequest (cfg : Config) (env : Nat → FetchOutcome) (retryCount : Nat) :
    ReqResult × List Nat :=
  match env retryCount with
  | .resp status =>
    if 200 ≤ status ∧ status < 300 then
      (.success status, [])
    else if status = 404 then
      (.noOffers, [])
    else if h : 500 ≤ status ∧ retryCount < cfg.maxRetries then
      let d := cfg.retryDelay * 2 ^ retryCount
      let r := makeRequest cfg env (retryCount + 1)
      (r.1, d :: r.2)
    else if 400 ≤ status ∧ status < 500 then
      (.clientError status, [])
    else
      (.thrown "API request failed", [])
  | .abort => (.thrown "Request timeout", [])
  | .netErr msgHasFetch =>
    if h : retryCount < cfg.maxRetries ∧ msgHasFetch = true then
      let d := cfg.retryDelay * 2 ^ retryCount
      let r := makeRequest cfg env (retryCount + 1)
      (r.1, d :: r.2)
    else
      (.thrown "network error", [])
termination_by cfg.maxRetries - retryCount
decreasing_by
  · omega
  · omega

/-- A 404 response on the current attempt yields the typed
`noOffersAvailable` value, with no retry and no throw. -/
lemma makeRequest_404 (cfg : Config) (env : Nat → FetchOutcome) (rc : Nat)
    (h : env rc = .resp 404) : makeRequest cfg env rc = (.noOffers, []) := by
  unfold makeRequest
  rw [h]
  norm_num

/-- A non-404 4xx response on the current attempt yields the typed
client-error object, with no retry and no throw. -/
lemma makeRequest_4xx (cfg : Config) (env : Nat → FetchOutcome) (rc s : Nat)
    (h : env rc = .resp s) (h4 : 400 ≤ s) (h5 : s < 500) (hne : s ≠ 404) :
    makeRequest cfg env rc = (.clientError s, []) := by
  unfold makeRequest
  rw [h]
  have h1 : ¬ (200 ≤ s ∧ s < 300) := by omega
  have h2 : ¬ (500 ≤ s ∧ rc < cfg.maxRetries) := by omega
  simp [h1, hne, h2, h4, h5]

/-- If every attempt returns a 5xx response, `makeRequest` eventually
throws (after exhausting the retry budget). -/
lemma makeRequest_5xx_throws (cfg : Config) (env : Nat → FetchOutcome) (rc : Nat)
    (h : ∀ i, ∃ s, env i = .resp s ∧ 500 ≤ s) :
    (makeRequest cfg env rc).1 = .thrown "API request failed" := by
  by_cases hrc : rc < cfg.maxRetries
  · obtain ⟨s, hs, hs5⟩ := h rc
    have ih := makeRequest_5xx_throws cfg env (rc + 1) h
    unfold makeRequest
    rw [hs]
    have h1 : ¬ (200 ≤ s ∧ s < 300) := by omega
    have h2 : ¬ s = 404 := by omega
    have h3 : 500 ≤ s ∧ rc < cfg.maxRetries := ⟨hs5, hrc⟩
    simp [h1, h2, h3, ih]
  · obtain ⟨s, hs, hs5⟩ := h rc
    unfold makeRequest
    rw [hs]
    have h1 : ¬ (200 ≤ s ∧ s < 300) := by omega
    have h2 : ¬ s = 404 := by omega
    have h3 : ¬ (500 ≤ s ∧ rc < cfg.maxRetries) := by omega
    have h4 : ¬ (400 ≤ s ∧ s < 500) := by omega
    simp [h1, h2, h3, h4]
termination_by cfg.maxRetries - rc
decreasing_by omega

/-- A timeout (`AbortError`) makes `makeRequest` throw `Request timeout`
immediately: no retry is attempted, whatever the remaining budget. -/
lemma makeRequest_abort (cfg : Config) (env : Nat → FetchOutcome) (rc : Nat)
    (h : env rc = .abort) :
    makeRequest cfg env rc = (.thrown "Request timeout", []) := by
  unfold makeRequest
  rw [h]

/-- A transport error whose message contains `fetch`, with retry budget
remaining, is retried with the exponential-backoff delay
`retryDelay * 2^retryCount`. -/
lemma makeRequest_netErr_retry (cfg : Config) (env : Nat → FetchOutcome) (rc : Nat)
    (h : env rc = .netErr true) (hrc : rc < cfg.maxRetries) :
    makeRequest cfg env rc =
      ((makeRequest cfg env (rc + 1)).1,
        cfg.retryDelay * 2 ^ rc :: (makeRequest cfg env (rc + 1)).2) := by
  conv_lhs => rw [makeRequest.eq_def]
  rw [h]
  simp only [dif_pos (show rc < cfg.maxRetries ∧ true = true from ⟨hrc, rfl⟩)]
  exact dif_pos ⟨hrc, trivial⟩

end AdlocaiteAPI

namespace VAST

/-- A media candidate as built by `parseMediaFiles` in
`package/js/vast-parser.js` (lines 142–159): attribute reads
(`getAttribute`) may yield `null`, and `parseInt(...) || null` maps
missing or zero numbers to `null`, so those fields are `Option`s. -/
structure MediaFile where
  url : String
  delivery : Option String
  type : Option String
  width : Option Nat
  height : Option Nat
  bitrate : Option Nat
deriving DecidableEq, Repr

/-- The sort comparator of `parseMediaFiles` (lines 162–169):
progressive delivery first, then higher bitrate first
(`(b.bitrate || 0) - (a.bitrate || 0)`). -/
def mfCompare (a b : MediaFile) : Int :=
  if a.delivery = some "progressive" ∧ ¬ b.delivery = some "progressive" then -1
  else if b.delivery = some "progressive" ∧ ¬ a.delivery = some "progressive" then 1
  else (b.bitrate.getD 0 : Int) - (a.bitrate.getD 0 : Int)

/-- The non-strict order induced by the comparator: `a` may come no
later than `b` exactly when `mfCompare a b ≤ 0`. -/
def mfLe (a b : MediaFile) : Prop := mfCompare a b ≤ 0

instance : DecidableRel mfLe := fun a b => by unfold mfLe mfCompare; infer_instance

/-- Characterization of `mfLe`: either `a` is progressive and `b` is
not, or they have the same progressive-flag and `b`'s effective bitrate
is at most `a`'s. -/
lemma mfLe_iff (a b : MediaFile) :
    mfLe a b ↔ ((a.delivery = some "progressive" ∧ ¬ b.delivery = some "progressive") ∨
      ((a.delivery = some "progressive" ↔ b.delivery = some "progressive") ∧
        b.bitrate.getD 0 ≤ a.bitrate.getD 0)) := by
  unfold mfLe mfCompare
  split_ifs with h1 h2
  · simp only [iff_true_intro h1]
    norm_num
  · constructor
    · intro hc
      norm_num at hc
    · intro hc
      rcases hc with hc | hc
      · exact absurd hc h1
      · exact absurd (hc.1.mpr h2.1) h2.2
  · have hiff : a.delivery = some "progressive" ↔ b.delivery = some "progressive" := by
      tauto
    constructor
    · intro hc
      refine Or.inr ⟨hiff, ?_⟩
      omega
    · intro hc
      rcases hc with hc | hc
      · exact absurd hc h1
      · omega

/-- Totality of `mfLe`: the comparator classifies every pair. -/
lemma mfLe_total (a b : MediaFile) : mfLe a b ∨ mfLe b a := by
  rw [mfLe_iff, mfLe_iff]
  by_cases ha : a.delivery = some "progressive" <;>
    by_cases hb : b.delivery = some "progressive" <;>
      rcases Nat.le_total (b.bitrate.getD 0) (a.bitrate.getD 0) with h | h <;> tauto

/-- Transitivity of `mfLe`. -/
lemma mfLe_trans (a b c : MediaFile) (hab : mfLe a b) (hbc : mfLe b c) : mfLe a c := by
  rw [mfLe_iff] at *
  by_cases ha : a.delivery = some "progressive" <;>
    by_cases hb : b.delivery = some "progressive" <;>
      by_cases hc : c.delivery = some "progressive" <;>
        first
          | tauto
          | (refine Or.inr ⟨by tauto, ?_⟩
             have h1 : b.bitrate.getD 0 ≤ a.bitrate.getD 0 := by tauto
             have h2 : c.bitrate.getD 0 ≤ b.bitrate.getD 0 := by tauto
             omega)

instance : IsTotal MediaFile mfLe := ⟨mfLe_total⟩

instance : IsTrans MediaFile mfLe := ⟨mfLe_trans⟩

/-- The deterministic ordering applied by `parseMediaFiles`:
`mediaFiles.sort(comparator)`.  JavaScript `Array.prototype.sort` is a
stable sort with respect to a consistent comparator; `List.insertionSort`
with the induced non-strict order has the same behaviour. -/
def sortMediaFiles (l : List MediaFile) : List MediaFile := l.insertionSort mfLe

lemma sortMediaFiles_perm (l : List MediaFile) : (sortMediaFiles l).Perm l :=
  List.perm_insertionSort mfLe l

lemma sortMediaFiles_sorted (l : List MediaFile) : (sortMediaFiles l).Sorted mfLe :=
  List.sorted_insertionSort mfLe l

/-- The preference scan of `getBestMediaFile` (lines 316–322): for each
preferred mime type in order, return the first candidate with exactly
that type. -/
def findPreferred (files : List MediaFile) : List String → Option MediaFile
  | [] => none
  | t :: ts =>
    match files.find? (fun mf => mf.type == some t) with
    | some m => some m
    | none => findPreferred files ts

/-- Model of `getBestMediaFile(preferredTypes)` from `package/js/vast-parser.js`
(lines 310–328): `null` when no parsed data; otherwise the first
candidate matching the earliest matching preferred type; otherwise the
first candidate of the (already sorted) list — `mediaFiles[0]` is
`undefined` on an empty array, which like `null` is an absent result. -/
def getBestMediaFile (parsedMediaFiles : Option (List MediaFile))
    (preferredTypes : List String) : Option MediaFile :=
  match parsedMediaFiles with
  | none => none
  | some files =>
    match findPreferred files preferredTypes with
    | some m => some m
    | none => files.head?

/-- Model of `getTrackingUrls(eventName)` from `package/js/vast-parser.js`
(lines 354–359): `[]` when nothing was parsed, else
`trackingEvents[eventName] || []`. -/
def getTrackingUrls (parsedTrackingEvents : Option (List (String × List String)))
    (eventName : String) : List String :=
  match parsedTrackingEvents with
  | none => []
  | some events => (events.lookup eventName).getD []

/-- Model of `isVideo` from `package/js/vast-parser.js` (lines 333–335). -/
def isVideo (mf : MediaFile) : Bool :=
  match mf.type with
  | some t => t.startsWith "video/"
  | none => false

/-- Model of `isImage` from `package/js/vast-parser.js` (lines 340–342). -/
def isImage (mf : MediaFile) : Bool :=
  match mf.type with
  | some t => t.startsWith "image/"
  | none => false

end VAST

namespace Player

/-- The session state of `AdlocaitePlayer` (`package/js/player.js`)
relevant to tracking and confirmation: the keys of `trackingFired`
currently set to `true`, the current `completionRate`, and
`currentDealId`.  `trackingFired[eventName]` is a JavaScript property
lookup, so it behaves as a string-keyed set. -/
structure PlayerState where
  fired : List String
  completionRate : Int
  currentDealId : Option String
deriving DecidableEq, Repr

/-- A freshly constructed session: all `trackingFired` flags false,
`completionRate = 0`, `currentDealId = null`. -/
def initPlayerState : PlayerState := ⟨[], 0, none⟩

/-- Model of `fireTrackingEvent(eventName)` from `package/js/player.js`
(lines 582–607).  `getUrls` stands for
`this.vastParser.getTrackingUrls(eventName)` at the time of the call.
Returns the updated state and the list of tracking-pixel URLs attempted
(each URL is fired as a fire-and-forget beacon whose failures are
swallowed, so the attempt list is all that is observable). -/
def fireTrackingEvent (getUrls : String → List String) (s : PlayerState)
    (eventName : String) : PlayerState × List String :=
  if s.fired.contains eventName then
    (s, [])
  else
    let s' : PlayerState := { s with fired := eventName :: s.fired }
    let urls := getUrls eventName
    if urls.isEmpty then (s', []) else (s', urls)

/-- Iterated `fireTrackingEvent` for the same event name, collecting all
beacon attempts across the calls. -/
def fireN (getUrls : String → List String) (eventName : String) :
    PlayerState → Nat → PlayerState × List String
  | s, 0 => (s, [])
  | s, n + 1 =>
    let r1 := fireTrackingEvent getUrls s eventName
    let r2 := fireN getUrls eventName r1.1 n
    (r2.1, r1.2 ++ r2.2)

/-- Model of `handleVideoProgress()` from `package/js/player.js` (lines 543–561),
for a session whose video element reports `currentTime`, with total
`duration`.  The guard `!this.duration || this.duration <= 0` skips
evaluation entirely for a non-positive duration; otherwise
`completionRate` is set to `Math.floor(progress)` and at most one
quartile event is fired through `fireTrackingEvent` per call, by the
`else if` chain.  Returns the updated state and the quartile event
fired (if any). -/
def handleVideoProgress (getUrls : String → List String) (s : PlayerState)
    (currentTime duration : ℚ) : PlayerState × Option String :=
  if duration ≤ 0 then (s, none)
  else
    let progress := currentTime / duration * 100
    let s0 : PlayerState := { s with completionRate := ⌊progress⌋ }
    if 25 ≤ progress ∧ s0.fired.contains "firstQuartile" = false then
      ((fireTrackingEvent getUrls s0 "firstQuartile").1, some "firstQuartile")
    else if 50 ≤ progress ∧ s0.fired.contains "midpoint" = false then
      ((fireTrackingEvent getUrls s0 "midpoint").1, some "midpoint")
    else if 75 ≤ progress ∧ s0.fired.contains "thirdQuartile" = false then
      ((fireTrackingEvent getUrls s0 "thirdQuartile").1, some "thirdQuartile")
    else (s0, none)

/-- A whole session's sequence of `timeupdate` progress reports, each a
pair `(currentTime, duration)`, run through `handleVideoProgress`;
collects the quartile events fired, in order. -/
def runVideoProgress (getUrls : String → List String) :
    PlayerState → List (ℚ × ℚ) → PlayerState × List String
  | s, [] => (s, [])
  | s, (t, d) :: rest =>
    let r1 := handleVideoProgress getUrls s t d
    let r2 := runVideoProgress getUrls r1.1 rest
    (r2.1, r1.2.toList ++ r2.2)

/-- A record of an outgoing `POST playout/confirm` request. -/
inductive ConfirmCall where
  | confirm (dealId : String) (completionRate : Int)
deriving DecidableEq, Repr

/-- Model of `confirmPlayout()` from `package/js/player.js` (lines 637–659).
If `currentDealId` is unset the function logs and returns at once,
making no API call; otherwise it calls
`apiClient.confirmPlayout(dealId, playoutData)` (whose network outcome
is the environment `apiOutcome`) and swallows any error in its
`catch`.  The result is the list of API calls performed; an
`Except.error` result would represent an exception escaping, which
never happens. -/
def confirmPlayout (apiOutcome : Except String Unit) (s : PlayerState) :
    Except String (List ConfirmCall) :=
  match s.currentDealId with
  | none => .ok []
  | some dealId =>
    match apiOutcome with
    | .ok _ => .ok [.confirm dealId s.completionRate]
    | .error _ => .ok [.confirm dealId s.completionRate]

/-- HTML5 media events relevant to video pre-loading readiness.
`loadeddata`/`canplay` signal that an initial burst of data is
available ("sufficient data to start"); `canplaythrough` signals the
browser's estimate that it can play to the end without further
buffering; `mediaError` is the element's `error` event; `loadTimeout`
is the expiry of the pre-load timeout set from `config.assetTimeout`. -/
inductive MediaEvent where
  | loadedmetadata
  | loadeddata
  | canplay
  | canplaythrough
  | mediaError
  | loadTimeout
deriving DecidableEq, Repr

/-- What the pre-load promise does when an event arrives. -/
inductive PreloadAction where
  | resolve
  | reject
  | ignore
deriving DecidableEq, Repr

/-- The event wiring of `preloadVideo(mediaFile)` from
`package/js/player.js` (lines 100–164): the promise resolves on the
`canplaythrough` listener, rejects on the `error` listener or on the
timeout, and has no listener for any other media event. -/
def preloadVideoOn : MediaEvent → PreloadAction
  | .canplaythrough => .resolve
  | .mediaError => .reject
  | .loadTimeout => .reject
  | _ => .ignore

end Player

namespace Adapter

/-- The host identity surface as read by `getScreenId()` of
`package/js/broadsign-adapter.js`:
`bsGetScreenId` is the behaviour of `BroadSignObject.getScreenId()`
(`none` when `BroadSignObject` is absent or has no such function, i.e.
`isBroadsignEnvironment()` is false; `some (.error ())` when the call
throws; `some (.ok v)` when it returns the string `v`, possibly empty);
`urlScreenId` is the `screen_id` query parameter (present values
returned as-is); `storedScreenId` is
`localStorage.getItem('adlocaite_screen_id')`; `nowMs` is `Date.now()`. -/
structure HostEnvV1 where
  bsGetScreenId : Option (Except Unit String)
  urlScreenId : Option String
  storedScreenId : Option String
  nowMs : Nat
deriving Repr

/-- JavaScript truthiness of a nullable string: `null` and the empty
string are falsy. -/
def truthy : Option String → Bool
  | none => false
  | some v => v ≠ ""

/-- Model of `getScreenId()` from `package/js/broadsign-adapter.js`
(lines 54–98).  `cached` is the `this.screenId` field (returned at once
when truthy).  The fallback chain is: `BroadSignObject.getScreenId()`
(non-empty results only; a throw is caught and skipped) → `screen_id`
URL parameter (returned whenever present) → non-empty
`localStorage` value → the synthesized identifier
`test-screen-${Date.now()}`.  The function always returns a string. -/
def getScreenIdV1 (cached : Option String) (env : HostEnvV1) : String :=
  if truthy cached then cached.getD ""
  else
    let fromBs : Option String :=
      match env.bsGetScreenId with
      | some (.ok v) => if v = "" then none else some v
      | _ => none
    match fromBs with
    | some v => v
    | none =>
      match env.urlScreenId with
      | some v => v
      | none =>
        match env.storedScreenId with
        | some v =>
          if v = "" then "test-screen-" ++ toString env.nowMs else v
        | none => "test-screen-" ++ toString env.nowMs

/-- A host identity surface with no identity source populated at all. -/
def emptyEnvV1 : HostEnvV1 := ⟨none, none, none, 1234567⟩

/-- The `BroadSignObject` property bag read by the newer adapter copy
(`unnamed/part_004`): `frame_id`, `display_unit_id`, `player_id`, each
possibly `null`/`undefined`. -/
structure BSObjV2 where
  frame_id : Option String
  display_unit_id : Option String
  player_id : Option String
deriving DecidableEq, Repr

/-- The host surface as read by the newer adapter: the result of
`getBroadSignObject()` (local or parent window; `none` when absent or
cross-origin denied), the `screen_id` URL parameter, and the persisted
`localStorage` value. -/
structure HostEnvV2 where
  bsObject : Option BSObjV2
  urlScreenId : Option String
  storedScreenId : Option String
deriving DecidableEq, Repr

/-- The test `x != null && String(x).trim() !== ''` applied by the newer
adapter to each `BroadSignObject` property; on success the un-trimmed
string is used. -/
def nonEmptyTrim : Option String → Option String
  | none => none
  | some s => if s.trim = "" then none else some s

/-- Model of `getScreenId()` from the newer adapter copy (`unnamed/part_004`,
lines 184–289).  Priority chain: `frame_id` → `display_unit_id` →
`player_id` (each via the trim test) → `screen_id` URL parameter
(returned whenever present) → truthy `localStorage` value → `null`.
All `BroadSignObject` access is inside `try`/`catch`, and no branch
throws: the function is total and returns `none` («no identity»)
when every source is empty, never a synthesized identifier. -/
def getScreenIdV2 (env : HostEnvV2) : Option String :=
  let fromBs : Option String :=
    match env.bsObject with
    | none => none
    | some bs =>
      match nonEmptyTrim bs.frame_id with
      | some v => some v
      | none =>
        match nonEmptyTrim bs.display_unit_id with
        | some v => some v
        | none => nonEmptyTrim bs.player_id
  match fromBs with
  | some v => some v
  | none =>
    match env.urlScreenId with
    | some v => some v
    | none =>
      match env.storedScreenId with
      | some v => if v = "" then none else some v
      | none => none

end Adapter

namespace Player

/-- When the event is already marked fired, `fireTrackingEvent` returns
immediately: state unchanged, no beacon attempted. -/
lemma fireTrackingEvent_of_contains (g : String → List String) (s : PlayerState)
    (e : String) (h : s.fired.contains e = true) :
    fireTrackingEvent g s e = (s, []) := by
  unfold fireTrackingEvent
  exact if_pos h

/-- When the event is not yet fired, `fireTrackingEvent` marks it fired
(whatever the URL list is). -/
lemma fireTrackingEvent_fst (g : String → List String) (s : PlayerState)
    (e : String) (h : s.fired.contains e = false) :
    (fireTrackingEvent g s e).1 = { s with fired := e :: s.fired } := by
  unfold fireTrackingEvent
  rw [h]
  by_cases h2 : (g e).isEmpty <;> simp [h2]

/-- After any call of `fireTrackingEvent` for `e`, the event `e` is
marked fired. -/
lemma fireTrackingEvent_contains_self (g : String → List String) (s : PlayerState)
    (e : String) : (fireTrackingEvent g s e).1.fired.contains e = true := by
  by_cases h : s.fired.contains e
  · rw [fireTrackingEvent_of_contains g s e h]
    exact h
  · rw [fireTrackingEvent_fst g s e (by simpa using h)]
    simp [List.contains_cons]

/-- Firing any event never unsets an already-fired flag. -/
lemma fireTrackingEvent_contains_mono (g : String → List String) (s : PlayerState)
    (e e' : String) (h : s.fired.contains e' = true) :
    (fireTrackingEvent g s e).1.fired.contains e' = true := by
  by_cases hc : s.fired.contains e
  · rw [fireTrackingEvent_of_contains g s e hc]
    exact h
  · rw [fireTrackingEvent_fst g s e (by simpa using hc)]
    simp only [List.contains_cons, Bool.or_eq_true]
    exact Or.inr h

/-- Iterating `fireTrackingEvent` from a state that already fired the
event does nothing at all. -/
lemma fireN_of_contains (g : String → List String) (e : String) :
    ∀ (n : Nat) (s : PlayerState), s.fired.contains e = true →
      fireN g e s n = (s, []) := by
  intro n
  induction n with
  | zero => intro s _; rfl
  | succ n ih =>
    intro s h
    unfold fireN
    rw [fireTrackingEvent_of_contains g s e h]
    simp [ih s h]

/-- The quartile events still to be fired, in the only order the
`else if` chain of `handleVideoProgress` can produce them. -/
def quartileRemaining (s : PlayerState) : List String :=
  (if s.fired.contains "firstQuartile" then [] else ["firstQuartile"]) ++
    (if s.fired.contains "midpoint" then [] else ["midpoint"]) ++
      (if s.fired.contains "thirdQuartile" then [] else ["thirdQuartile"])

/-- Reachable-session invariant: a later quartile flag is only ever set
after the earlier ones. -/
def quartileInv (s : PlayerState) : Prop :=
  (s.fired.contains "midpoint" = true → s.fired.contains "firstQuartile" = true) ∧
    (s.fired.contains "thirdQuartile" = true → s.fired.contains "midpoint" = true)

/-- One `timeupdate` report preserves the invariant and fires either
nothing or exactly the next pending quartile event. -/
lemma handleVideoProgress_step (g : String → List String) (s : PlayerState)
    (t d : ℚ) (hinv : quartileInv s) :
    quartileInv (handleVideoProgress g s t d).1 ∧
      (((handleVideoProgress g s t d).2 = none ∧
          quartileRemaining (handleVideoProgress g s t d).1 = quartileRemaining s) ∨
        (∃ ev, (handleVideoProgress g s t d).2 = some ev ∧
          quartileRemaining s = ev :: quartileRemaining (handleVideoProgress g s t d).1)) := by
  obtain ⟨hmp, htq⟩ := hinv
  unfold handleVideoProgress
  dsimp only
  split_ifs with hd h1 h2 h3
  · exact ⟨⟨hmp, htq⟩, Or.inl ⟨rfl, rfl⟩⟩
  · rw [fireTrackingEvent_fst g { s with completionRate := ⌊t / d * 100⌋ } "firstQuartile" h1.2]
    refine ⟨⟨?_, ?_⟩, Or.inr ⟨"firstQuartile", rfl, ?_⟩⟩
    · intro h
      simp only [List.contains_cons, Bool.or_eq_true]
      exact Or.inl (by decide)
    · intro h
      simp only [List.contains_cons, Bool.or_eq_true] at h ⊢
      rcases h with h | h
      · exact absurd h (by decide)
      · exact Or.inr (htq h)
    · have hnm : "firstQuartile" ∉ s.fired := by simpa using h1.2
      simp [quartileRemaining, List.contains_cons, hnm,
        (by decide : ¬ ("midpoint" : String) = "firstQuartile"),
        (by decide : ¬ ("thirdQuartile" : String) = "firstQuartile")]
  · have hfq : s.fired.contains "firstQuartile" = true := by
      rcases Bool.eq_false_or_eq_true (s.fired.contains "firstQuartile") with h | h
      · exact h
      · exact absurd ⟨by linarith [h2.1], h⟩ h1
    rw [fireTrackingEvent_fst g { s with completionRate := ⌊t / d * 100⌋ } "midpoint" h2.2]
    refine ⟨⟨?_, ?_⟩, Or.inr ⟨"midpoint", rfl, ?_⟩⟩
    · intro h
      simp only [List.contains_cons, Bool.or_eq_true]
      exact Or.inr hfq
    · intro h
      simp only [List.contains_cons, Bool.or_eq_true]
      exact Or.inl (by decide)
    · have hnm : "midpoint" ∉ s.fired := by simpa using h2.2
      have hm1 : "firstQuartile" ∈ s.fired := by simpa using hfq
      simp [quartileRemaining, List.contains_cons, hnm, hm1,
        (by decide : ¬ ("thirdQuartile" : String) = "midpoint")]
  · have hfq : s.fired.contains "firstQuartile" = true := by
      rcases Bool.eq_false_or_eq_true (s.fired.contains "firstQuartile") with h | h
      · exact h
      · exact absurd ⟨by linarith [h3.1], h⟩ h1
    have hmp' : s.fired.contains "midpoint" = true := by
      rcases Bool.eq_false_or_eq_true (s.fired.contains "midpoint") with h | h
      · exact h
      · exact absurd ⟨by linarith [h3.1], h⟩ h2
    rw [fireTrackingEvent_fst g { s with completionRate := ⌊t / d * 100⌋ } "thirdQuartile" h3.2]
    refine ⟨⟨?_, ?_⟩, Or.inr ⟨"thirdQuartile", rfl, ?_⟩⟩
    · intro h
      simp only [List.contains_cons, Bool.or_eq_true]
      exact Or.inr hfq
    · intro h
      simp only [List.contains_cons, Bool.or_eq_true]
      exact Or.inr hmp'
    · have hnm : "thirdQuartile" ∉ s.fired := by simpa using h3.2
      have hm1 : "firstQuartile" ∈ s.fired := by simpa using hfq
      have hm2 : "midpoint" ∈ s.fired := by simpa using hmp'
      simp [quartileRemaining, List.contains_cons, hnm, hm1, hm2]
  · exact ⟨⟨hmp, htq⟩, Or.inl ⟨rfl, rfl⟩⟩

/-- Over a whole session the quartile trace always extends along the
pending list, never out of order. -/
lemma runVideoProgress_trace (g : String → List String) (l : List (ℚ × ℚ)) :
    ∀ s : PlayerState, quartileInv s →
      (runVideoProgress g s l).2 <+: quartileRemaining s ∧
        quartileInv (runVideoProgress g s l).1 := by
  induction l with
  | nil =>
    intro s h
    exact ⟨⟨quartileRemaining s, by simp [runVideoProgress]⟩, h⟩
  | cons p rest ih =>
    intro s hs
    obtain ⟨t, d⟩ := p
    obtain ⟨hinv', hcase⟩ := handleVideoProgress_step g s t d hs
    obtain ⟨⟨u, hu⟩, hinv''⟩ := ih (handleVideoProgress g s t d).1 hinv'
    unfold runVideoProgress
    rcases hcase with ⟨hnone, hrem⟩ | ⟨ev, hsome, hrem⟩
    · refine ⟨⟨u, ?_⟩, hinv''⟩
      simp only [hnone, Option.toList_none, List.nil_append]
      rw [hu, hrem]
    · refine ⟨⟨u, ?_⟩, hinv''⟩
      simp only [hsome, Option.toList_some, List.cons_append, List.singleton_append]
      rw [hrem, ← hu]
      simp

end Player

namespace VAST

/-- The comparator order is reflexive. -/
lemma mfLe_refl (a : MediaFile) : mfLe a a := by
  unfold mfLe mfCompare
  split_ifs with h1
  · norm_num
  · omega

/-- Scanning preferences over an empty candidate list finds nothing. -/
lemma findPreferred_nil (prefs : List String) : findPreferred [] prefs = none := by
  induction prefs with
  | nil => rfl
  | cons t ts ih => simp [findPreferred, ih]

/-- When no preferred type matches any candidate, the scan finds
nothing. -/
lemma findPreferred_of_no_match (files : List MediaFile) (prefs : List String)
    (h : ∀ t ∈ prefs, ∀ mf ∈ files, ¬ mf.type = some t) :
    findPreferred files prefs = none := by
  induction prefs with
  | nil => rfl
  | cons t ts ih =>
    unfold findPreferred
    have hfind : files.find? (fun mf => mf.type == some t) = none := by
      rw [List.find?_eq_none]
      intro mf hmf
      simpa using h t (List.mem_cons_self t ts) mf hmf
    rw [hfind]
    exact ih fun u hu mf hmf => h u (List.mem_cons_of_mem t hu) mf hmf

/-- When the types before `t` match nothing and `t` has a first match
`m`, the scan returns `m`. -/
lemma findPreferred_app (files : List MediaFile) (ts1 : List String) (t : String)
    (ts2 : List String) (m : MediaFile)
    (h1 : ∀ u ∈ ts1, ∀ mf ∈ files, ¬ mf.type = some u)
    (h2 : files.find? (fun mf => mf.type == some t) = some m) :
    findPreferred files (ts1 ++ t :: ts2) = some m := by
  induction ts1 with
  | nil =>
    rw [List.nil_append]
    unfold findPreferred
    rw [h2]
  | cons u us ih =>
    rw [List.cons_append]
    unfold findPreferred
    have hfind : files.find? (fun mf => mf.type == some u) = none := by
      rw [List.find?_eq_none]
      intro mf hmf
      simpa using h1 u (List.mem_cons_self u us) mf hmf
    rw [hfind]
    exact ih fun v hv mf hmf => h1 v (List.mem_cons_of_mem u hv) mf hmf

/-- Scenario data: a progressive 1200 kbps MP4 candidate. -/
def mfProg1200 : MediaFile :=
  ⟨"https://cdn.example/creative-hd.mp4", some "progressive", some "video/mp4",
    some 1920, some 1080, some 1200⟩

/-- Scenario data: a streaming 5000 kbps candidate. -/
def mfStream5000 : MediaFile :=
  ⟨"https://cdn.example/creative-stream.m3u8", some "streaming", some "video/mp4",
    some 1920, some 1080, some 5000⟩

/-- Scenario data: a progressive 800 kbps MP4 candidate. -/
def mfProg800 : MediaFile :=
  ⟨"https://cdn.example/creative-sd.mp4", some "progressive", some "video/mp4",
    some 1280, some 720, some 800⟩

/-- Scenario data: the three-candidate list of the spec's Scenario C,
in document order. -/
def scenarioC : List MediaFile := [mfProg1200, mfStream5000, mfProg800]

end VAST

/-- C1: for every HTTP response received by the Exchange Client's
request function, a 404 response returns the typed `noOffersAvailable`
value without throwing; every other 4xx response returns the typed
error object without throwing; and 5xx responses, after the bounded
retry budget is exhausted, always propagate as a thrown failure. -/
theorem C1_exchange_status_policy :
    (∀ (cfg : AdlocaiteAPI.Config) (env : Nat → AdlocaiteAPI.FetchOutcome) (rc : Nat),
        env rc = .resp 404 →
          AdlocaiteAPI.makeRequest cfg env rc = (.noOffers, [])) ∧
    (∀ (cfg : AdlocaiteAPI.Config) (env : Nat → AdlocaiteAPI.FetchOutcome) (rc s : Nat),
        env rc = .resp s → 400 ≤ s → s < 500 → s ≠ 404 →
          AdlocaiteAPI.makeRequest cfg env rc = (.clientError s, [])) ∧
    (∀ (cfg : AdlocaiteAPI.Config) (env : Nat → AdlocaiteAPI.FetchOutcome) (rc : Nat),
        (∀ i, ∃ s, env i = .resp s ∧ 500 ≤ s) →
          (AdlocaiteAPI.makeRequest cfg env rc).1 = .thrown "API request failed") :=
  ⟨AdlocaiteAPI.makeRequest_404, AdlocaiteAPI.makeRequest_4xx,
    AdlocaiteAPI.makeRequest_5xx_throws⟩

/-- Witness for C1, at the default configuration: a 404, a 403 and an
all-503 environment. -/
theorem C1_exchange_status_policy_witness :
    AdlocaiteAPI.makeRequest ⟨3, 1000⟩ (fun _ => .resp 404) 0 = (.noOffers, []) ∧
    AdlocaiteAPI.makeRequest ⟨3, 1000⟩ (fun _ => .resp 403) 0 = (.clientError 403, []) ∧
    (AdlocaiteAPI.makeRequest ⟨3, 1000⟩ (fun _ => .resp 503) 0).1 =
      .thrown "API request failed" :=
  ⟨C1_exchange_status_policy.1 _ _ _ rfl,
    C1_exchange_status_policy.2.1 _ _ _ _ rfl (by norm_num) (by norm_num) (by norm_num),
    C1_exchange_status_policy.2.2 _ _ _ fun i => ⟨503, rfl, by norm_num⟩⟩

/-- C2 counterexample: the claim says the Preloading → Preloaded
transition is triggered by a "sufficient data to start" media event
(`loadeddata` / `canplay`) and not by the "can play through without
further buffering" event; in `preloadVideo` it is exactly the other way
round — the only resolving listener is `canplaythrough`, and the
"sufficient data" events have no listener at all. -/
theorem C2_preload_readiness_counterexample :
    Player.preloadVideoOn .loadeddata = .ignore ∧
    Player.preloadVideoOn .canplay = .ignore ∧
    Player.preloadVideoOn .canplaythrough = .resolve :=
  ⟨rfl, rfl, rfl⟩

/-- C2 (amended): during video preloading, the Preloading → Preloaded
readiness transition is triggered by the "can play through without
further buffering" event (`canplaythrough`), and no other media event
resolves preloading. -/
theorem C2_preload_readiness_amended :
    Player.preloadVideoOn .canplaythrough = .resolve ∧
    (∀ e, Player.preloadVideoOn e = .resolve → e = .canplaythrough) := by
  refine ⟨rfl, ?_⟩
  intro e h
  cases e <;> first | rfl | exact absurd h (by decide)

/-- Witness for C2 (amended) at the resolving event itself. -/
theorem C2_preload_readiness_amended_witness :
    Player.preloadVideoOn .canplaythrough = .resolve ∧
    Player.MediaEvent.canplaythrough = Player.MediaEvent.canplaythrough :=
  ⟨C2_preload_readiness_amended.1, C2_preload_readiness_amended.2 .canplaythrough rfl⟩

/-- C4 counterexample: with the whole retry budget remaining
(`0 < maxRetries = 3`) and an environment whose first attempt times out
while a retry would have succeeded with HTTP 200, `makeRequest` does
not retry: it throws `Request timeout` at once (and sleeps no backoff
delay). -/
theorem C4_timeout_retry_counterexample :
    AdlocaiteAPI.makeRequest ⟨3, 1000⟩
        (fun i => if i = 0 then .abort else .resp 200) 0 =
      (.thrown "Request timeout", []) ∧
    (0 : Nat) < 3 ∧
    (AdlocaiteAPI.makeRequest ⟨3, 1000⟩
        (fun i => if i = 0 then .abort else .resp 200) 1).1 = .success 200 := by
  refine ⟨AdlocaiteAPI.makeRequest_abort _ _ _ rfl, by norm_num, ?_⟩
  rw [AdlocaiteAPI.makeRequest.eq_def]
  norm_num

/-- C4 (amended): when an Exchange Client request hits its hard
per-call timeout, the error propagates immediately with no retry; only
transport errors whose message contains `fetch` are retried, with the
exponential backoff delay `retryDelay * 2^retryCount`, while the
bounded attempt count is not exhausted. -/
theorem C4_timeout_retry_amended :
    (∀ (cfg : AdlocaiteAPI.Config) (env : Nat → AdlocaiteAPI.FetchOutcome) (rc : Nat),
        env rc = .abort →
          AdlocaiteAPI.makeRequest cfg env rc = (.thrown "Request timeout", [])) ∧
    (∀ (cfg : AdlocaiteAPI.Config) (env : Nat → AdlocaiteAPI.FetchOutcome) (rc : Nat),
        env rc = .netErr true → rc < cfg.maxRetries →
          AdlocaiteAPI.makeRequest cfg env rc =
            ((AdlocaiteAPI.makeRequest cfg env (rc + 1)).1,
              cfg.retryDelay * 2 ^ rc :: (AdlocaiteAPI.makeRequest cfg env (rc + 1)).2)) :=
  ⟨AdlocaiteAPI.makeRequest_abort, AdlocaiteAPI.makeRequest_netErr_retry⟩

/-- Witness for C4 (amended): a timeout at attempt 0, and a
fetch-tagged network error at attempt 0 with budget remaining. -/
theorem C4_timeout_retry_amended_witness :
    AdlocaiteAPI.makeRequest ⟨3, 1000⟩ (fun _ => .abort) 0 =
      (.thrown "Request timeout", []) ∧
    AdlocaiteAPI.makeRequest ⟨3, 1000⟩
        (fun i => if i = 0 then .netErr true else .resp 200) 0 =
      ((AdlocaiteAPI.makeRequest ⟨3, 1000⟩
          (fun i => if i = 0 then .netErr true else .resp 200) 1).1,
        1000 * 2 ^ 0 :: (AdlocaiteAPI.makeRequest ⟨3, 1000⟩
          (fun i => if i = 0 then .netErr true else .resp 200) 1).2) :=
  ⟨C4_timeout_retry_amended.1 _ _ _ rfl,
    C4_timeout_retry_amended.2 _ _ _ rfl (by norm_num)⟩

/-- C3 counterexample: the packaged resolver
(`package/js/broadsign-adapter.js`) with every identity source empty —
no `BroadSignObject`, no `screen_id` URL parameter, nothing persisted —
does not return a "no identity" value: it synthesizes the fabricated
identifier `test-screen-<Date.now()>`. -/
theorem C3_identity_resolution_counterexample :
    Adapter.getScreenIdV1 none Adapter.emptyEnvV1 = "test-screen-1234567" := by
  decide

/-- C3 (amended): the identity resolvers never throw (they are total
functions of the host surface); the newer resolver (`unnamed/part_004`)
returns `null` — a "no identity" value — when every identity source is
empty, while the packaged resolver (`package/js/broadsign-adapter.js`)
instead synthesizes the fabricated identifier
`test-screen-<Date.now()>`. -/
theorem C3_identity_resolution_amended :
    (∀ env : Adapter.HostEnvV2,
        (∀ bs, env.bsObject = some bs →
          Adapter.nonEmptyTrim bs.frame_id = none ∧
            Adapter.nonEmptyTrim bs.display_unit_id = none ∧
              Adapter.nonEmptyTrim bs.player_id = none) →
        env.urlScreenId = none →
        (env.storedScreenId = none ∨ env.storedScreenId = some "") →
        Adapter.getScreenIdV2 env = none) ∧
    (∀ env : Adapter.HostEnvV1,
        env.bsGetScreenId = none → env.urlScreenId = none → env.storedScreenId = none →
        Adapter.getScreenIdV1 none env = "test-screen-" ++ toString env.nowMs) := by
  constructor
  · intro env hbs hurl hstore
    unfold Adapter.getScreenIdV2
    rcases hb : env.bsObject with _ | bs
    · rcases hstore with h | h <;> simp [hb, hurl, h]
    · obtain ⟨h1, h2, h3⟩ := hbs bs hb
      rcases hstore with h | h <;> simp [hb, hurl, h, h1, h2, h3]
  · intro env hbs hurl hstore
    unfold Adapter.getScreenIdV1
    simp [hbs, hurl, hstore, Adapter.truthy]

/-- Witness for C3 (amended): a host surface whose `BroadSignObject`
exposes none of its identifier properties, with no URL parameter and an
empty persisted value, resolves to `none`; and the packaged resolver on
the all-empty surface synthesizes a test identifier. -/
theorem C3_identity_resolution_amended_witness :
    Adapter.getScreenIdV2 ⟨some ⟨none, none, none⟩, none, some ""⟩ = none ∧
    Adapter.getScreenIdV1 none ⟨none, none, none, 42⟩ = "test-screen-42" :=
  ⟨C3_identity_resolution_amended.1 _
      (fun bs hbs => by cases hbs; exact ⟨rfl, rfl, rfl⟩) rfl (Or.inr rfl),
    C3_identity_resolution_amended.2 _ rfl rfl rfl⟩

/-- C5: in every playback session and for every sequence of reported
progress values, the quartile trace is an initial segment of
`[firstQuartile, midpoint, thirdQuartile]` — so each event fires at
most once and strictly in that order — and a report with non-positive
duration is skipped entirely: no event fires and the session state is
untouched. -/
theorem C5_quartile_order :
    (∀ (g : String → List String) (reports : List (ℚ × ℚ)),
        (Player.runVideoProgress g Player.initPlayerState reports).2 <+:
          ["firstQuartile", "midpoint", "thirdQuartile"]) ∧
    (∀ (g : String → List String) (s : Player.PlayerState) (t d : ℚ), d ≤ 0 →
        Player.handleVideoProgress g s t d = (s, none)) := by
  constructor
  · intro g reports
    have hinv : Player.quartileInv Player.initPlayerState :=
      ⟨fun h => absurd h (by decide), fun h => absurd h (by decide)⟩
    have h := (Player.runVideoProgress_trace g reports Player.initPlayerState hinv).1
    simpa [Player.quartileRemaining, Player.initPlayerState] using h
  · intro g s t d hd
    unfold Player.handleVideoProgress
    rw [if_pos hd]

/-- Witness for C5: a twenty-second video reported at 30 % and 55 %,
and an invalid report with duration −1. -/
theorem C5_quartile_order_witness :
    (Player.runVideoProgress (fun _ => []) Player.initPlayerState
        [(6, 20), (11, 20)]).2 <+: ["firstQuartile", "midpoint", "thirdQuartile"] ∧
    ((-1 : ℚ) ≤ 0 ∧
      Player.handleVideoProgress (fun _ => []) Player.initPlayerState 5 (-1) =
        (Player.initPlayerState, none)) :=
  ⟨C5_quartile_order.1 _ _,
    by norm_num, C5_quartile_order.2 _ _ _ _ (by norm_num)⟩

/-- C6: for every event name, any number of `fireTrackingEvent` calls
within one session yields at most one beacon attempt per tracking URL:
after a call the event is marked in the fired set, a call for an
already-fired event is a no-op with zero beacons, firing one event
never clears another flag (the set is never reset mid-session), and
`n + 1` consecutive calls attempt exactly the beacons of the first. -/
theorem C6_tracking_idempotence :
    (∀ (g : String → List String) (s : Player.PlayerState) (e : String),
        (Player.fireTrackingEvent g s e).1.fired.contains e = true) ∧
    (∀ (g : String → List String) (s : Player.PlayerState) (e : String),
        s.fired.contains e = true → Player.fireTrackingEvent g s e = (s, [])) ∧
    (∀ (g : String → List String) (s : Player.PlayerState) (e e' : String),
        s.fired.contains e' = true →
          (Player.fireTrackingEvent g s e).1.fired.contains e' = true) ∧
    (∀ (g : String → List String) (s : Player.PlayerState) (e : String) (n : Nat),
        (Player.fireN g e s (n + 1)).2 = (Player.fireTrackingEvent g s e).2) := by
  refine ⟨Player.fireTrackingEvent_contains_self, Player.fireTrackingEvent_of_contains,
    Player.fireTrackingEvent_contains_mono, ?_⟩
  intro g s e n
  have hrest := Player.fireN_of_contains g e n (Player.fireTrackingEvent g s e).1
    (Player.fireTrackingEvent_contains_self g s e)
  unfold Player.fireN
  simp [hrest]

/-- Witness for C6: a session firing `start` six times attempts its
single pixel once, and a pre-fired session is left untouched. -/
theorem C6_tracking_idempotence_witness :
    (Player.fireTrackingEvent (fun _ => ["https://t.example/p"]) Player.initPlayerState
        "start").1.fired.contains "start" = true ∧
    Player.fireTrackingEvent (fun _ => ["https://t.example/p"])
        ⟨["start"], 0, none⟩ "start" = (⟨["start"], 0, none⟩, []) ∧
    (Player.fireTrackingEvent (fun _ => ["https://t.example/p"])
        ⟨["start"], 0, none⟩ "impression").1.fired.contains "start" = true ∧
    (Player.fireN (fun _ => ["https://t.example/p"]) "start" Player.initPlayerState
        (5 + 1)).2 =
      (Player.fireTrackingEvent (fun _ => ["https://t.example/p"])
        Player.initPlayerState "start").2 :=
  ⟨C6_tracking_idempotence.1 _ _ _,
    C6_tracking_idempotence.2.1 _ _ _ (by decide),
    C6_tracking_idempotence.2.2.1 _ _ "impression" _ (by decide),
    C6_tracking_idempotence.2.2.2 _ _ _ 5⟩

/-- C7: the media-candidate ordering of the decoder is deterministic
and total — the comparator relation classifies every pair and is
transitive — and the sorted output is a permutation of the input,
sorted by the comparator; consequently every progressive-delivery
candidate precedes every non-progressive one, and candidates with the
same delivery mode appear in descending effective bitrate.  Ties (equal
progressive-flag and bitrate) are broken deterministically by stable
input order. -/
theorem C7_media_candidate_total_order :
    (∀ a b : VAST.MediaFile, VAST.mfLe a b ∨ VAST.mfLe b a) ∧
    (∀ a b c : VAST.MediaFile, VAST.mfLe a b → VAST.mfLe b c → VAST.mfLe a c) ∧
    (∀ l, (VAST.sortMediaFiles l).Perm l) ∧
    (∀ l, (VAST.sortMediaFiles l).Sorted VAST.mfLe) ∧
    (∀ l, (VAST.sortMediaFiles l).Pairwise
        (fun a b => b.delivery = some "progressive" → a.delivery = some "progressive")) ∧
    (∀ l, (VAST.sortMediaFiles l).Pairwise
        (fun a b => a.delivery = b.delivery → b.bitrate.getD 0 ≤ a.bitrate.getD 0)) := by
  refine ⟨VAST.mfLe_total, VAST.mfLe_trans, VAST.sortMediaFiles_perm,
    VAST.sortMediaFiles_sorted, ?_, ?_⟩
  · intro l
    have hs : (VAST.sortMediaFiles l).Pairwise VAST.mfLe := VAST.sortMediaFiles_sorted l
    refine hs.imp ?_
    intro a b hab hb
    rcases (VAST.mfLe_iff a b).mp hab with ⟨_, hnb⟩ | ⟨hiff, _⟩
    · exact absurd hb hnb
    · exact hiff.mpr hb
  · intro l
    have hs : (VAST.sortMediaFiles l).Pairwise VAST.mfLe := VAST.sortMediaFiles_sorted l
    refine hs.imp ?_
    intro a b hab heq
    rcases (VAST.mfLe_iff a b).mp hab with ⟨ha, hnb⟩ | ⟨_, hbr⟩
    · exact absurd (heq ▸ ha) hnb
    · exact hbr

/-- Witness for C7: the Scenario C candidates, with transitivity
applied through the progressive 800 kbps candidate. -/
theorem C7_media_candidate_total_order_witness :
    VAST.mfLe VAST.mfProg1200 VAST.mfProg800 ∧
    VAST.mfLe VAST.mfProg800 VAST.mfStream5000 ∧
    VAST.mfLe VAST.mfProg1200 VAST.mfStream5000 :=
  ⟨by decide, by decide,
    C7_media_candidate_total_order.2.1 VAST.mfProg1200 VAST.mfProg800 VAST.mfStream5000
      (by decide) (by decide)⟩

/-- C8: the best-media selection returns `null` when nothing was parsed
or the candidate list is empty; when no candidate matches any preferred
mime type it returns the first — hence, on the decoder-ordered list,
the highest-priority — candidate; and when some preference matches, it
returns the first candidate matching the earliest matching preference
entry.  The head of the decoder-ordered list is below every member in
the decoder's order. -/
theorem C8_best_media_selection :
    (∀ prefs, VAST.getBestMediaFile none prefs = none) ∧
    (∀ prefs, VAST.getBestMediaFile (some []) prefs = none) ∧
    (∀ (files : List VAST.MediaFile) (prefs : List String),
        (∀ t ∈ prefs, ∀ mf ∈ files, ¬ mf.type = some t) →
          VAST.getBestMediaFile (some files) prefs = files.head?) ∧
    (∀ (files : List VAST.MediaFile) (ts1 : List String) (t : String)
        (ts2 : List String) (m : VAST.MediaFile),
        (∀ u ∈ ts1, ∀ mf ∈ files, ¬ mf.type = some u) →
          files.find? (fun mf => mf.type == some t) = some m →
            VAST.getBestMediaFile (some files) (ts1 ++ t :: ts2) = some m) ∧
    (∀ (l : List VAST.MediaFile) (x m : VAST.MediaFile),
        (VAST.sortMediaFiles l).head? = some x → m ∈ VAST.sortMediaFiles l →
          VAST.mfLe x m) := by
  refine ⟨fun prefs => rfl, ?_, ?_, ?_, ?_⟩
  · intro prefs
    simp [VAST.getBestMediaFile, VAST.findPreferred_nil]
  · intro files prefs h
    simp [VAST.getBestMediaFile, VAST.findPreferred_of_no_match files prefs h]
  · intro files ts1 t ts2 m h1 h2
    simp [VAST.getBestMediaFile, VAST.findPreferred_app files ts1 t ts2 m h1 h2]
  · intro l x m hhead hmem
    have hs : (VAST.sortMediaFiles l).Pairwise VAST.mfLe := VAST.sortMediaFiles_sorted l
    cases hl : VAST.sortMediaFiles l with
    | nil =>
      rw [hl] at hhead
      simp at hhead
    | cons y ys =>
      rw [hl] at hhead hmem hs
      have hxy : y = x := by simpa using hhead
      subst hxy
      rcases List.mem_cons.mp hmem with rfl | hmem'
      · exact VAST.mfLe_refl m
      · exact (List.pairwise_cons.mp hs).1 m hmem'

/-- Witness for C8, Scenario C: the decoder-ordered three-candidate
list (progressive 1200, streaming 5000, progressive 800) with the
default preference list selects the progressive 1200 kbps entry. -/
theorem C8_best_media_selection_witness :
    VAST.getBestMediaFile (some (VAST.sortMediaFiles VAST.scenarioC))
        ["video/mp4", "image/jpeg", "image/png"] = some VAST.mfProg1200 := by
  have h := C8_best_media_selection.2.2.2.1 (VAST.sortMediaFiles VAST.scenarioC) []
      "video/mp4" ["image/jpeg", "image/png"] VAST.mfProg1200
      (fun u hu => absurd hu (List.not_mem_nil u)) (by decide)
  simpa using h

/-- C9: for an event whose tracking-URL list is empty or absent,
`fireTrackingEvent` still marks the event fired, performs zero beacon
attempts and returns normally; any later call for the same event name
within the session — even with URLs now available — is a no-op.
`getTrackingUrls` returns `[]` both when nothing was parsed and when
the event has no entry. -/
theorem C9_empty_urls_still_marks_fired :
    (∀ e, VAST.getTrackingUrls none e = []) ∧
    (∀ (evs : List (String × List String)) (e : String), evs.lookup e = none →
        VAST.getTrackingUrls (some evs) e = []) ∧
    (∀ (g : String → List String) (s : Player.PlayerState) (e : String),
        g e = [] → s.fired.contains e = false →
          Player.fireTrackingEvent g s e = ({ s with fired := e :: s.fired }, [])) ∧
    (∀ (g g' : String → List String) (s : Player.PlayerState) (e : String),
        Player.fireTrackingEvent g' (Player.fireTrackingEvent g s e).1 e =
          ((Player.fireTrackingEvent g s e).1, [])) := by
  refine ⟨fun e => rfl, ?_, ?_, ?_⟩
  · intro evs e h
    simp [VAST.getTrackingUrls, h]
  · intro g s e hurls hc
    unfold Player.fireTrackingEvent
    rw [hc]
    simp [hurls]
  · intro g g' s e
    exact Player.fireTrackingEvent_of_contains g' _ e
      (Player.fireTrackingEvent_contains_self g s e)

/-- Witness for C9: an `impression` event with no tracking entry is
marked fired with zero beacons, and refiring it with URLs available is
a no-op. -/
theorem C9_empty_urls_still_marks_fired_witness :
    VAST.getTrackingUrls (some [("complete", ["https://t.example/c"])]) "impression" = [] ∧
    Player.fireTrackingEvent (fun _ => []) Player.initPlayerState "impression" =
      ({ Player.initPlayerState with fired := ["impression"] }, []) ∧
    Player.fireTrackingEvent (fun _ => ["https://t.example/i"])
        (Player.fireTrackingEvent (fun _ => []) Player.initPlayerState "impression").1
        "impression" =
      ((Player.fireTrackingEvent (fun _ => []) Player.initPlayerState "impression").1,
        []) :=
  ⟨C9_empty_urls_still_marks_fired.2.1 _ _ (by decide),
    C9_empty_urls_still_marks_fired.2.2.1 _ _ _ rfl (by decide),
    C9_empty_urls_still_marks_fired.2.2.2 _ _ _ _⟩

/-- C10: when the playback session has no deal identifier,
`confirmPlayout` performs no API request at all and returns normally;
and whatever the network outcome, `confirmPlayout` never lets an error
escape. -/
theorem C10_no_deal_skips_confirmation :
    (∀ (apiOutcome : Except String Unit) (s : Player.PlayerState),
        s.currentDealId = none → Player.confirmPlayout apiOutcome s = .ok []) ∧
    (∀ (apiOutcome : Except String Unit) (s : Player.PlayerState),
        ∃ calls, Player.confirmPlayout apiOutcome s = .ok calls) := by
  constructor
  · intro out s h
    unfold Player.confirmPlayout
    rw [h]
  · intro out s
    rcases hd : s.currentDealId with _ | d
    · exact ⟨[], by unfold Player.confirmPlayout; rw [hd]⟩
    · rcases out with e | u
      · exact ⟨[.confirm d s.completionRate], by unfold Player.confirmPlayout; rw [hd]⟩
      · exact ⟨[.confirm d s.completionRate], by unfold Player.confirmPlayout; rw [hd]⟩

/-- Witness for C10: a fresh session (no deal identifier) with a failing
network performs no confirmation call and reports no error. -/
theorem C10_no_deal_skips_confirmation_witness :
    Player.initPlayerState.currentDealId = none ∧
    Player.confirmPlayout (Except.error "network down") Player.initPlayerState =
      .ok [] :=
  ⟨rfl, C10_no_deal_skips_confirmation.1 _ _ rfl⟩
